import Mathlib

/-!
Verification development for the Campaign Estimator repository
(`src/app.py` and `src/OUT_estimation_app_v2.py`).

The two Python files are shallowly embedded below.  Strings are modelled as
lists of characters (`Chars`); Python string methods that the sources use
(`str.replace` on single-character patterns, `str.strip`, `str.lower`,
`str.count`, substring containment) are given explicit executable
definitions.  Python `float(...)` applied to a string is modelled by
`pyFloat`, an executable parser for the decimal/exponent grammar CPython
accepts (special spellings such as `inf`/`nan`/underscores and surrounding
whitespace tolerance are outside the modelled fragment; no value in the
sources or in the theorems below uses them).  Python floats themselves are
modelled as rationals; `ratDecChars` models CPython `str()` of a float whose
shortest round-trip representation is a plain decimal numeral, which is the
case for every concrete float appearing in the theorems below.

Namespace `App` embeds `src/app.py`; namespace `V2` embeds
`src/OUT_estimation_app_v2.py`.
-/

abbrev Chars := List Char

/-- Python `s.replace(x, '')` for a single character `x`. -/
def removeChar (x : Char) (s : Chars) : Chars :=
  s.filter (fun c => c != x)

/-- Python `s.replace(x, y)` for single characters `x`, `y`. -/
def replaceChar (x y : Char) (s : Chars) : Chars :=
  s.map (fun c => if c = x then y else c)

/-- Python `s.count(x)` for a single character `x`. -/
def countC (x : Char) : Chars → ℕ
  | [] => 0
  | c :: t => (if c = x then 1 else 0) + countC x t

/-- Python `s.lower()` (restricted to the ASCII/simple case mapping). -/
def lowerChars (s : Chars) : Chars := s.map Char.toLower

/-- Characters stripped by Python `str.strip()` (ASCII whitespace plus the
non-breaking and narrow no-break spaces that occur in the sources). -/
def isPySpace (c : Char) : Bool :=
  c == ' ' || c == '\t' || c == '\n' || c == '\r' || c == '\x0b' ||
  c == '\x0c' || c == Char.ofNat 160 || c == Char.ofNat 8239

/-- Python `s.strip()`. -/
def pyStrip (s : Chars) : Chars :=
  ((s.dropWhile isPySpace).reverse.dropWhile isPySpace).reverse

/-- ASCII decimal digit test (regex `\d`, and the digits accepted by
`float`). -/
def isDig (c : Char) : Bool :=
  decide (48 ≤ c.toNat) && decide (c.toNat ≤ 57)

/-- Numeric value of an ASCII digit character. -/
def digVal (c : Char) : ℕ := c.toNat - 48

/-- Value of a big-endian ASCII digit string. -/
def digsVal : Chars → ℕ
  | [] => 0
  | c :: t => digVal c * 10 ^ t.length + digsVal t

/-- Longest digit prefix and the remainder. -/
def spanDig : Chars → Chars × Chars
  | [] => ([], [])
  | c :: t =>
    if isDig c then (c :: (spanDig t).1, (spanDig t).2) else ([], c :: t)

/-- Consume an optional leading sign; returns (isNegative, rest). -/
def stripSign : Chars → Bool × Chars
  | [] => (false, [])
  | c :: t =>
    if c = '-' then (true, t) else if c = '+' then (false, t) else (false, c :: t)

/-- Syntactic decomposition of a float literal: sign, integer-part digits,
fraction-part digits, exponent sign, exponent digits (an absent exponent is
recorded as the empty digit string, i.e. exponent `0`).  `none` models a
literal outside the grammar Python `float` accepts. -/
def pyFloatParts (s : Chars) : Option (Bool × Chars × Chars × Bool × Chars) :=
  let sg := stripSign s
  match spanDig sg.2 with
  | (ip, rest) =>
    let fpr : Chars × Chars :=
      match rest with
      | '.' :: r => spanDig r
      | _ => ([], rest)
    if ip.isEmpty && fpr.1.isEmpty then none
    else
      match fpr.2 with
      | [] => some (sg.1, ip, fpr.1, false, [])
      | c :: r2 =>
        if c = 'e' ∨ c = 'E' then
          let esg := stripSign r2
          match spanDig esg.2 with
          | (ed, r3) =>
            if ed.isEmpty || !r3.isEmpty then none
            else some (sg.1, ip, fpr.1, esg.1, ed)
        else none

/-- Exact value of a decomposed float literal. -/
def partsVal : Bool × Chars × Chars × Bool × Chars → ℚ
  | (neg, ip, fp, eneg, ed) =>
    let mz : ℤ := (digsVal ip * 10 ^ fp.length + digsVal fp : ℕ)
    let m : ℤ := if neg then -mz else mz
    if eneg then mkRat m (10 ^ fp.length * 10 ^ digsVal ed)
    else mkRat (m * 10 ^ digsVal ed) (10 ^ fp.length)

/-- Python `float(s)` on the decimal/exponent grammar; `none` models
`ValueError`. -/
def pyFloat (s : Chars) : Option ℚ :=
  (pyFloatParts s).map partsVal

/-- Decimal digit string of a natural number (fuel-structured so that it
reduces inside the kernel; the fuel `n+1` always suffices). -/
def natCharsAux : ℕ → ℕ → Chars
  | 0, _ => []
  | fuel + 1, n =>
    if n < 10 then [Nat.digitChar n]
    else natCharsAux fuel (n / 10) ++ [Nat.digitChar (n % 10)]

/-- Decimal digit string of a natural number, as Python `str` renders it. -/
def natChars (n : ℕ) : Chars := natCharsAux (n + 1) n

/-- Python `str` of an integer. -/
def intChars : ℤ → Chars
  | Int.ofNat n => natChars n
  | Int.negSucc m => '-' :: natChars (m + 1)

/-- Left-pad the decimal digits of `n` with zeros to width `k`. -/
def padZeros (k n : ℕ) : Chars :=
  List.replicate (k - (natChars n).length) '0' ++ natChars n

/-- CPython `str()` of a float whose shortest round-trip representation is a
plain decimal numeral: the minimal decimal digits, always keeping at least
one fractional digit (`str(2.0) = "2.0"`).  Rationals outside that fragment
(never produced by the modelled code paths) map to `[]`. -/
def ratDecChars (q : ℚ) : Chars :=
  let sign : Chars := if q.num < 0 then ['-'] else []
  let n := q.num.natAbs
  let d := q.den
  match (List.range 18).find? (fun k => 10 ^ k % d == 0) with
  | some 0 => sign ++ natChars n ++ ['.', '0']
  | some k =>
    let scaled := n * (10 ^ k / d)
    sign ++ natChars (scaled / 10 ^ k) ++ '.' :: padZeros k (scaled % 10 ^ k)
  | none => []

/-- A Python value as it can occur in the Demand column: a missing marker
(`None`/`NaN`, the values `pd.isna` recognises), a bool, an int, a float, or
a string. -/
inductive PyVal where
  | none
  | bool (b : Bool)
  | int (n : ℤ)
  | float (q : ℚ)
  | str (s : Chars)
deriving DecidableEq

/-- Python `str(v)`. -/
def pyStr : PyVal → Chars
  | .none => []
  | .bool true => ['T', 'r', 'u', 'e']
  | .bool false => ['F', 'a', 'l', 's', 'e']
  | .int n => intChars n
  | .float q => ratDecChars q
  | .str s => s

namespace App

/-- Characters kept by `re.sub(r'[^\d,.\-]', '', s)` in
`src/app.py:84`. -/
def keep (c : Char) : Bool :=
  isDig c || c == ',' || c == '.' || c == '-'

/-- The string-cleaning steps of `parse_demand` (`src/app.py:80-87`):
remove ordinary and non-breaking spaces, drop every character other than
digits, comma, period and minus, and turn a single comma with no period
into a decimal point. -/
def cleaned (s : Chars) : Chars :=
  let s1 := removeChar ' ' (removeChar (Char.ofNat 8239) (removeChar (Char.ofNat 160) s))
  let s2 := s1.filter keep
  if countC ',' s2 = 1 ∧ countC '.' s2 = 0 then replaceChar ',' '.' s2 else s2

/-- The textual path of `parse_demand` (`src/app.py:80-97`): clean, reject
degenerate strings, parse as float, and reject magnitudes above the `1e12`
ceiling. -/
def strPath (s : Chars) : Option ℚ :=
  let c := cleaned s
  if c = [] ∨ c = ['-'] ∨ c = ['.'] ∨ c = [','] then Option.none
  else
    match pyFloat c with
    | some num => if (10 ^ 12 : ℚ) < |num| then Option.none else some num
    | Option.none => Option.none

/-- `parse_demand` from `src/app.py:74-97`.  A missing value maps to
`None`; a numeric non-bool value is returned as its float directly
(before any cleaning or ceiling check); bools and strings go through
`str(val)` and the textual path. -/
def parse_demand : PyVal → Option ℚ
  | .none => Option.none
  | .int n => some (n : ℚ)
  | .float q => some q
  | .bool b => strPath (pyStr (.bool b))
  | .str s => strPath s

/-- The column transformation of `clean_demand_column`
(`src/app.py:99-100`): apply `parse_demand` to every Demand value. -/
def clean_demand_column (col : List PyVal) : List (Option ℚ) :=
  col.map parse_demand

/-- The `valid` diagnostic of `clean_demand_column` (`src/app.py:102`). -/
def validCount (out : List (Option ℚ)) : ℕ :=
  (out.filter (fun v => v.isSome)).length

/-- The `invalid` diagnostic of `clean_demand_column` (`src/app.py:103`). -/
def invalidCount (out : List (Option ℚ)) : ℕ :=
  (out.filter (fun v => v.isNone)).length

end App

namespace V2

/-- `parse_demand` from `src/OUT_estimation_app_v2.py:21-30`.  There is no
numeric-type fast path and no magnitude ceiling: every non-missing value is
stringified, the euro sign and spaces are removed, every period is deleted,
every comma becomes a period, and the result is parsed as a float
(`None` on failure). -/
def parse_demand (v : PyVal) : Option ℚ :=
  match v with
  | .none => Option.none
  | v =>
    let s0 := pyStr v
    let s1 := removeChar ' ' (removeChar '€' s0)
    let s2 := replaceChar ',' '.' (removeChar '.' s1)
    pyFloat s2

/-- The column transformation of `clean_demand_column`
(`src/OUT_estimation_app_v2.py:33-34`). -/
def clean_demand_column (col : List PyVal) : List (Option ℚ) :=
  col.map parse_demand

end V2

/-- Re-inject a normalized column as a Python column (a cleaned float
column: `None` for missing, a float otherwise), as it sits in the
DataFrame after `clean_demand_column`. -/
def toPyCol (out : List (Option ℚ)) : List PyVal :=
  out.map (fun v => match v with | Option.none => PyVal.none | some q => PyVal.float q)

/-- A pandas float cell as it appears after aggregation: either `NaN` or a
real number.  (`Series.mean()` over no valid values yields `NaN`; arithmetic
with `NaN` propagates it.) -/
inductive PDVal where
  | nan
  | num (q : ℚ)
deriving DecidableEq

/-- Multiplication with `NaN` propagation. -/
def mulPD : PDVal → PDVal → PDVal
  | .num a, .num b => .num (a * b)
  | _, _ => .nan

/-- Addition with `NaN` propagation. -/
def addPD : PDVal → PDVal → PDVal
  | .num a, .num b => .num (a + b)
  | _, _ => .nan

/-- Division with `NaN` propagation (only ever applied with a nonzero
numeric divisor by the code below). -/
def divPD : PDVal → PDVal → PDVal
  | .num a, .num b => .num (a / b)
  | _, _ => .nan

/-- Pandas `Series.mean()` of a Demand column with `skipna=True`: the
arithmetic mean of the non-null values, `NaN` when there are none. -/
def demandMean (df : List (Option ℚ)) : PDVal :=
  let v := df.filterMap id
  if v.isEmpty then .nan else .num (v.sum / (v.length : ℚ))

/-- Emptiness test used by `estimate_demand` in `src/app.py:157-164`:
`df is None or df.empty`.  A sub-table is represented by its Demand
column. -/
def isEmptyDf : Option (List (Option ℚ)) → Bool
  | Option.none => true
  | some df => df.isEmpty

/-- The per-period mean of `src/app.py:157-158`: the pandas mean when the
sub-table exists and is non-empty, `0` otherwise. -/
def meanOrZero (df : Option (List (Option ℚ))) : PDVal :=
  match df with
  | some d => if d.isEmpty then .num 0 else demandMean d
  | Option.none => .num 0

namespace App

/-- `estimate_demand` from `src/app.py:156-166`.  Sub-tables are
represented by their Demand columns (`Option.none` models passing `None`
for the whole DataFrame); the result is `Option.none` for Python `None`,
otherwise the (possibly `NaN`) float. -/
def estimate_demand (earlier_df later_df : Option (List (Option ℚ)))
    (percentage : ℚ) : Option PDVal :=
  let earlier_mean := meanOrZero earlier_df
  let later_mean := meanOrZero later_df
  let adjusted_earlier := mulPD earlier_mean (.num (1 + percentage / 100))
  if isEmptyDf earlier_df && isEmptyDf later_df then Option.none
  else if isEmptyDf earlier_df then some later_mean
  else if isEmptyDf later_df then some adjusted_earlier
  else some (divPD (addPD adjusted_earlier later_mean) (.num 2))

end App

namespace V2

/-- `estimate_demand` from `src/OUT_estimation_app_v2.py:83-95`.  The `V2`
caller never passes `None` DataFrames and the `Demand` column is present on
every table that reaches this function (the app aborts earlier
otherwise), so sub-tables are plain Demand columns. -/
def estimate_demand (earlier_df later_df : List (Option ℚ))
    (percentage : ℚ) : Option PDVal :=
  let earlier_mean := if earlier_df.isEmpty then PDVal.num 0 else demandMean earlier_df
  let later_mean := if later_df.isEmpty then PDVal.num 0 else demandMean later_df
  let adjusted_earlier := mulPD earlier_mean (.num (1 + percentage / 100))
  if earlier_df.isEmpty && later_df.isEmpty then Option.none
  else if earlier_df.isEmpty then some later_mean
  else if later_df.isEmpty then some adjusted_earlier
  else some (divPD (addPD adjusted_earlier later_mean) (.num 2))

end V2

/-- Which periods contributed to the estimate.  Modelled from the spec
(§3 EstimationResult): the code returns only the value, and the basis
labels name its four branches, determined by the emptiness of the two
sub-tables exactly as in `src/app.py:160-166`. -/
inductive EstBasis where
  | NONE
  | EARLIER_ONLY
  | LATER_ONLY
  | BOTH
deriving DecidableEq

/-- The basis of an estimate, from the emptiness of the two inputs. -/
def basisOf (earlier_df later_df : Option (List (Option ℚ))) : EstBasis :=
  if isEmptyDf earlier_df && isEmptyDf later_df then .NONE
  else if isEmptyDf earlier_df then .LATER_ONLY
  else if isEmptyDf later_df then .EARLIER_ONLY
  else .BOTH

/-- A date cell as consumed by `pd.to_datetime(..., dayfirst=True,
errors='coerce')`: the library call is modelled abstractly as a partial map
from cells to points on a totally ordered timeline (integers); `bad` is a
cell whose parse fails and coerces to `NaT`. -/
inductive DateCell where
  | stamp (d : ℤ)
  | bad
deriving DecidableEq

/-- The result of `pd.to_datetime(..., errors='coerce')` on one cell;
`Option.none` is `NaT`. -/
def toDT : DateCell → Option ℤ
  | .stamp d => some d
  | .bad => Option.none

/-- One row of the campaign table, holding the fields the filters touch. -/
structure Row where
  country : Chars
  name : Chars
  description : Chars
  category : Chars
  dstart : DateCell
  dend : DateCell
  demand : Option ℚ
deriving DecidableEq

/-- A DataFrame: which of the optional columns exist, plus the rows.  When
a presence flag is false the corresponding field of every row is
meaningless. -/
structure Table where
  hasCountry : Bool
  hasName : Bool
  hasDescription : Bool
  hasCategory : Bool
  hasStart : Bool
  hasEnd : Bool
  rows : List Row
deriving DecidableEq

/-- The empty DataFrame `pd.DataFrame()`: no columns, no rows. -/
def emptyTable : Table :=
  { hasCountry := false, hasName := false, hasDescription := false,
    hasCategory := false, hasStart := false, hasEnd := false, rows := [] }

/-- Leading-segment test on character lists. -/
def isPrefixOfL : Chars → Chars → Bool
  | [], _ => true
  | _ :: _, [] => false
  | a :: as, b :: bs => a == b && isPrefixOfL as bs

/-- Substring occurrence test on character lists. -/
def hasSub (pat : Chars) : Chars → Bool
  | [] => isPrefixOfL pat []
  | c :: t => isPrefixOfL pat (c :: t) || hasSub pat t

/-- Case-insensitive substring test, modelling
`Series.str.contains(pattern, case=False, na=False)` for a pattern free of
regex metacharacters (every pattern exercised below is). -/
def containsCI (hay pat : Chars) : Bool :=
  hasSub (lowerChars pat) (lowerChars hay)

namespace App

/-- Country restriction, `src/app.py:122`: exact match. -/
def countryStage (t : Table) (country : Chars) : List Row :=
  t.rows.filter (fun r => r.country == country)

/-- Text cleaning of a single field, `src/app.py:127-131`: `str.strip`
followed by removal of non-breaking and narrow no-break spaces. -/
def cleanText (s : Chars) : Chars :=
  removeChar (Char.ofNat 8239) (removeChar (Char.ofNat 160) (pyStrip s))

/-- Text cleaning of the Name, Description and Category fields of a row,
applied only to columns that exist (`src/app.py:125-131`). -/
def cleanRowTexts (t : Table) (r : Row) : Row :=
  { r with
    name := if t.hasName then cleanText r.name else r.name,
    description := if t.hasDescription then cleanText r.description else r.description,
    category := if t.hasCategory then cleanText r.category else r.category }

/-- Category restriction, `src/app.py:134-135`: applies only when a
category is selected, it is not the `"All"` sentinel, and the column
exists; compares lower-cased cleaned values against the lower-cased
stripped selection. -/
def categoryStage (hasCat : Bool) (selected : Option Chars) (rows : List Row) :
    List Row :=
  match selected with
  | some c =>
    if c ≠ [] ∧ c ≠ "All".toList ∧ hasCat then
      rows.filter (fun r => lowerChars r.category == lowerChars (pyStrip c))
    else rows
  | Option.none => rows

/-- Free-text search, `src/app.py:137-143`: applies only when the term is
non-empty and its stripped form has length at least 3; a missing Name or
Description column contributes a constant-false mask. -/
def searchStage (hasName hasDesc : Bool) (search : Chars) (rows : List Row) :
    List Row :=
  if search ≠ [] ∧ 3 ≤ (pyStrip search).length then
    rows.filter (fun r =>
      (if hasName then containsCI r.name (pyStrip search) else false) ||
      (if hasDesc then containsCI r.description (pyStrip search) else false))
  else rows

/-- Row predicate of the date filter, `src/app.py:151`:
`(End >= start_ts) & (Start <= end_ts)`; a comparison against `NaT`
(either date failed to parse) is `False`. -/
def dateKeep (sd ed : ℤ) (r : Row) : Bool :=
  match toDT r.dend, toDT r.dstart with
  | some e', some s' => decide (sd ≤ e') && decide (s' ≤ ed)
  | _, _ => false

/-- Date-overlap filter, `src/app.py:146-151`: runs only when both date
columns exist. -/
def dateStage (hasStart hasEnd : Bool) (sd ed : ℤ) (rows : List Row) :
    List Row :=
  if hasStart && hasEnd then rows.filter (dateKeep sd ed) else rows

/-- `filter_data` from `src/app.py:110-153`.  Returns the empty DataFrame
when the Country column is missing; otherwise applies the country,
text-cleaning, category, search and date stages in order.  The criteria
dates are already-parsed timestamps (`pd.to_datetime(start_date)` on the
UI-supplied date). -/
def filter_data (df : Table) (country : Chars) (search_filter : Chars)
    (start_date end_date : ℤ) (selected_category : Option Chars) : Table :=
  if !df.hasCountry then emptyTable
  else
    let r1 := (countryStage df country).map (cleanRowTexts df)
    let r2 := categoryStage df.hasCategory selected_category r1
    let r3 := searchStage df.hasName df.hasDescription search_filter r2
    let r4 := dateStage df.hasStart df.hasEnd start_date end_date r3
    { df with rows := r4 }

end App

namespace V2

/-- Country restriction, `src/OUT_estimation_app_v2.py:57` (no
column-presence guard: the modelled tables contain the accessed
columns). -/
def countryStage (t : Table) (country : Chars) : List Row :=
  t.rows.filter (fun r => r.country == country)

/-- Category restriction, `src/OUT_estimation_app_v2.py:59-60`: strips and
lower-cases the column values in place. -/
def categoryStage (selected : Option Chars) (rows : List Row) : List Row :=
  match selected with
  | some c =>
    if c ≠ [] ∧ c ≠ "All".toList then
      rows.filter (fun r => lowerChars (pyStrip r.category) == lowerChars (pyStrip c))
    else rows
  | Option.none => rows

/-- Free-text search, `src/OUT_estimation_app_v2.py:62-67`: the length
guard uses the raw (untrimmed) term, and the untrimmed term is the
pattern. -/
def searchStage (search : Chars) (rows : List Row) : List Row :=
  if search ≠ [] ∧ 3 ≤ search.length then
    rows.filter (fun r =>
      containsCI r.description search || containsCI r.name search)
  else rows

/-- Row predicate of the date filter, `src/OUT_estimation_app_v2.py:76-79`:
containment `(Start >= start_ts) & (End <= end_ts)`; a comparison against
`NaT` is `False`. -/
def dateKeep (sd ed : ℤ) (r : Row) : Bool :=
  match toDT r.dstart, toDT r.dend with
  | some s', some e' => decide (sd ≤ s') && decide (e' ≤ ed)
  | _, _ => false

/-- Date-containment filter, `src/OUT_estimation_app_v2.py:73-79`
(unconditional: the date columns are always parsed). -/
def dateStage (sd ed : ℤ) (rows : List Row) : List Row :=
  rows.filter (dateKeep sd ed)

/-- `filter_data` from `src/OUT_estimation_app_v2.py:56-81`: country,
category, search and date-containment stages in order. -/
def filter_data (df : Table) (country : Chars) (campaign_filter : Chars)
    (start_date end_date : ℤ) (selected_category : Option Chars) : Table :=
  let r1 := countryStage df country
  let r2 := categoryStage selected_category r1
  let r3 := searchStage campaign_filter r2
  let r4 := dateStage start_date end_date r3
  { df with rows := r4 }

end V2

/-- The exact value of `float(intpart + "." + fracpart)` for digit strings
`a` (integer part) and `b` (fraction part). -/
def decimalVal (a b : Chars) : ℚ :=
  mkRat ((digsVal a * 10 ^ b.length + digsVal b : ℕ) : ℤ) (10 ^ b.length)

/-- A sample campaign row used to instantiate the general theorems. -/
def rowA : Row :=
  { country := "PL".toList, name := "Promo".toList,
    description := "Summer".toList, category := "Retail".toList,
    dstart := .stamp 1, dend := .stamp 10, demand := some 5 }

/-- A sample one-row table with every optional column present. -/
def tableA : Table :=
  { hasCountry := true, hasName := true, hasDescription := true,
    hasCategory := true, hasStart := true, hasEnd := true, rows := [rowA] }

/-- A sample table without a Country column. -/
def tableNoCountry : Table :=
  { hasCountry := false, hasName := true, hasDescription := true,
    hasCategory := true, hasStart := true, hasEnd := true, rows := [rowA] }

/-! Helper lemmas. -/

theorem filter_all {α : Type} (p : α → Bool) :
    ∀ l : List α, (∀ a ∈ l, p a = true) → l.filter p = l := by
  intro l h
  induction l with
  | nil => rfl
  | cons a t ih =>
    have ha := h a (by simp)
    simp only [List.filter_cons, ha, if_true]
    rw [ih (fun x hx => h x (by simp [hx]))]

theorem removeChar_id {x : Char} {l : Chars} (h : ∀ c ∈ l, c ≠ x) :
    removeChar x l = l := by
  apply filter_all
  intro c hc
  simpa using h c hc

theorem replaceChar_id {x y : Char} {l : Chars} (h : ∀ c ∈ l, c ≠ x) :
    replaceChar x y l = l := by
  unfold replaceChar
  rw [show l.map (fun c => if c = x then y else c) = l.map id from
    List.map_congr_left (fun c hc => by simp [h c hc]), List.map_id]

theorem countC_append (x : Char) (l1 l2 : Chars) :
    countC x (l1 ++ l2) = countC x l1 + countC x l2 := by
  induction l1 with
  | nil => simp [countC]
  | cons a t ih => simp [countC, ih]; omega

theorem countC_zero {x : Char} {l : Chars} (h : ∀ c ∈ l, c ≠ x) :
    countC x l = 0 := by
  induction l with
  | nil => rfl
  | cons a t ih =>
    have ha := h a (by simp)
    simp only [countC, if_neg ha, ih (fun c hc => h c (by simp [hc]))]

theorem ne_of_isDig {c x : Char} (hc : isDig c = true) (hx : isDig x = false) :
    c ≠ x := by
  intro h
  subst h
  rw [hc] at hx
  cases hx

theorem spanDig_all {a rest : Chars} (ha : ∀ c ∈ a, isDig c = true)
    (hr : rest = [] ∨ ∃ c t, rest = c :: t ∧ isDig c = false) :
    spanDig (a ++ rest) = (a, rest) := by
  induction a with
  | nil =>
    rcases hr with h | ⟨c, t, rfl, hc⟩
    · subst h; rfl
    · simp [spanDig, hc]
  | cons d a' ih =>
    have hd := ha d (by simp)
    have ih' := ih (fun c hc => ha c (by simp [hc]))
    simp only [List.cons_append, spanDig, hd, if_true, List.append_eq, ih']

theorem filterMap_id_nil {col : List (Option ℚ)}
    (h : ∀ x ∈ col, x = Option.none) : col.filterMap id = [] := by
  induction col with
  | nil => rfl
  | cons a t ih =>
    have ha := h a (by simp)
    subst ha
    simpa using ih (fun x hx => h x (by simp [hx]))

theorem mulPD_nan (x : PDVal) : mulPD PDVal.nan x = PDVal.nan := by
  cases x <;> rfl

/-! Claim theorems. -/

/-- Claim C10 (confirmed): when the input table lacks a Country column,
`filter_data` in `src/app.py` returns the empty DataFrame for every
combination of criteria, instead of raising. -/
theorem filter_data_missing_country (df : Table) (country search : Chars)
    (sd ed : ℤ) (cat : Option Chars) (h : df.hasCountry = false) :
    App.filter_data df country search sd ed cat = emptyTable ∧
    (App.filter_data df country search sd ed cat).rows = [] := by
  constructor <;> simp [App.filter_data, h, emptyTable]

/-- Witness for C10 at a concrete country-less table. -/
theorem filter_data_missing_country_witness :
    App.filter_data tableNoCountry "PL".toList [] 0 5 Option.none = emptyTable :=
  (filter_data_missing_country tableNoCountry "PL".toList [] 0 5 Option.none rfl).1

/-- Claim C5 (confirmed): any textual demand value whose cleaned string
parses to a float of absolute magnitude beyond the `1e12` ceiling of
`src/app.py:93` is normalized to `None` (rejection, not an exception). -/
theorem parse_demand_ceiling (s : Chars) (num : ℚ)
    (hp : pyFloat (App.cleaned s) = some num)
    (hc : (10 ^ 12 : ℚ) < |num|) :
    App.parse_demand (.str s) = Option.none := by
  show App.strPath s = Option.none
  simp only [App.strPath]
  split
  · rfl
  · rw [hp]
    simp [hc]

/-- Witness for C5: the 13-digit string `"9999999999999"` cleans to itself,
parses to `9999999999999 > 1e12`, and is normalized to `None`. -/
theorem parse_demand_ceiling_witness :
    pyFloat (App.cleaned "9999999999999".toList) = some 9999999999999 ∧
    App.parse_demand (.str "9999999999999".toList) = Option.none :=
  ⟨by decide, parse_demand_ceiling "9999999999999".toList 9999999999999
    (by decide) (by decide)⟩

/-- Claim C2 (confirmed): `estimate_demand` returns `None` when both
sub-tables are empty (basis NONE), the later mean when only the earlier is
empty (basis LATER_ONLY), the growth-adjusted earlier mean when only the
later is empty (basis EARLIER_ONLY), their average when both are non-empty
(basis BOTH); concretely `estimate({demand:[100]}, {demand:[200]}, 10) =
155` with basis BOTH, and the `V2` variant computes the same function on
non-`None` inputs. -/
theorem estimate_demand_branches :
    (∀ (e l : Option (List (Option ℚ))) (p : ℚ),
      (isEmptyDf e = true → isEmptyDf l = true →
        App.estimate_demand e l p = Option.none ∧ basisOf e l = .NONE) ∧
      (isEmptyDf e = true → isEmptyDf l = false →
        App.estimate_demand e l p = some (meanOrZero l) ∧
          basisOf e l = .LATER_ONLY) ∧
      (isEmptyDf e = false → isEmptyDf l = true →
        App.estimate_demand e l p =
            some (mulPD (meanOrZero e) (.num (1 + p / 100))) ∧
          basisOf e l = .EARLIER_ONLY) ∧
      (isEmptyDf e = false → isEmptyDf l = false →
        App.estimate_demand e l p =
            some (divPD
              (addPD (mulPD (meanOrZero e) (.num (1 + p / 100))) (meanOrZero l))
              (.num 2)) ∧
          basisOf e l = .BOTH)) ∧
    App.estimate_demand (some [some 100]) (some [some 200]) 10 =
      some (.num 155) ∧
    basisOf (some [some 100]) (some [some 200]) = .BOTH ∧
    (∀ (e l : List (Option ℚ)) (p : ℚ),
      V2.estimate_demand e l p = App.estimate_demand (some e) (some l) p) := by
  refine ⟨fun e l p => ⟨fun h1 h2 => ?_, fun h1 h2 => ?_, fun h1 h2 => ?_,
    fun h1 h2 => ?_⟩, ?_, ?_, fun e l p => rfl⟩
  · constructor <;> simp [App.estimate_demand, basisOf, h1, h2]
  · constructor <;> simp [App.estimate_demand, basisOf, h1, h2]
  · constructor <;> simp [App.estimate_demand, basisOf, h1, h2]
  · constructor <;> simp [App.estimate_demand, basisOf, h1, h2]
  · have e1 : meanOrZero (some [some (100 : ℚ)]) = PDVal.num 100 := by
      simp [meanOrZero, demandMean]
    have e2 : meanOrZero (some [some (200 : ℚ)]) = PDVal.num 200 := by
      simp [meanOrZero, demandMean]
    simp only [App.estimate_demand, isEmptyDf, e1, e2, mulPD, addPD, divPD,
      List.isEmpty_cons, Bool.false_and, Bool.if_false_left]
    norm_num
  · rfl

/-- Witness for C2: the NONE and EARLIER_ONLY branches at concrete
inputs. -/
theorem estimate_demand_branches_witness :
    App.estimate_demand Option.none Option.none 7 = Option.none ∧
    App.estimate_demand (some [some 100]) Option.none 10 =
      some (mulPD (meanOrZero (some [some 100])) (.num (1 + 10 / 100))) :=
  ⟨((estimate_demand_branches.1 Option.none Option.none 7).1 rfl rfl).1,
   ((estimate_demand_branches.1 (some [some 100]) Option.none 10).2.2.1
     rfl rfl).1⟩

/-- Claim C6 (corrected): in `src/app.py` a non-empty sub-table all of
whose Demand values are null has pandas mean `NaN`, not `0`; the resulting
estimate is `NaN` with basis EARLIER_ONLY (symmetrically LATER_ONLY), not
`0`. -/
theorem estimate_demand_all_null_nan (col : List (Option ℚ)) (p : ℚ)
    (hne : col ≠ []) (hall : ∀ x ∈ col, x = Option.none) :
    App.estimate_demand (some col) (some []) p = some PDVal.nan ∧
    basisOf (some col) (some []) = .EARLIER_ONLY ∧
    App.estimate_demand (some []) (some col) p = some PDVal.nan ∧
    basisOf (some []) (some col) = .LATER_ONLY := by
  have hmean : demandMean col = PDVal.nan := by
    simp [demandMean, filterMap_id_nil hall]
  have hemp : col.isEmpty = false := by
    cases col with
    | nil => exact absurd rfl hne
    | cons a t => rfl
  refine ⟨?_, ?_, ?_, ?_⟩ <;>
    simp [App.estimate_demand, basisOf, meanOrZero, isEmptyDf, hemp, hmean,
      mulPD_nan]

/-- Counterexample for C6: the claim predicts estimate `0` for an all-null
non-empty earlier set and empty later set; the code yields `NaN`. -/
theorem estimate_demand_all_null_not_zero :
    App.estimate_demand (some [Option.none]) (some []) 10 = some PDVal.nan ∧
    some PDVal.nan ≠ some (PDVal.num 0) := by
  constructor
  · simp [App.estimate_demand, meanOrZero, demandMean, isEmptyDf, mulPD_nan]
  · decide

/-- Witness for C6 at the concrete all-null column `[None]`. -/
theorem estimate_demand_all_null_nan_witness :
    App.estimate_demand (some [Option.none]) (some []) 3 = some PDVal.nan ∧
    basisOf (some [Option.none]) (some []) = .EARLIER_ONLY :=
  ⟨(estimate_demand_all_null_nan [Option.none] 3 (by decide)
      (by intro x hx; simpa using hx)).1,
   (estimate_demand_all_null_nan [Option.none] 3 (by decide)
      (by intro x hx; simpa using hx)).2.1⟩

/-- Claim C1 (corrected): `clean_demand_column` has no outlier-correction
pass.  Each value parses independently (subject only to the `1e12`
ceiling), so the column `["54332", "61230", "543320000"]` normalizes to
`[54332.0, 61230.0, 543320000.0]` with diagnostics `valid=3, invalid=0`
(there are no suspicious/corrected counters), identically in both
variants. -/
theorem clean_demand_column_no_outlier_pass :
    App.clean_demand_column
        [.str "54332".toList, .str "61230".toList, .str "543320000".toList] =
      [some 54332, some 61230, some 543320000] ∧
    App.validCount (App.clean_demand_column
        [.str "54332".toList, .str "61230".toList, .str "543320000".toList]) = 3 ∧
    App.invalidCount (App.clean_demand_column
        [.str "54332".toList, .str "61230".toList, .str "543320000".toList]) = 0 ∧
    V2.clean_demand_column
        [.str "54332".toList, .str "61230".toList, .str "543320000".toList] =
      [some 54332, some 61230, some 543320000] := by
  refine ⟨by decide, by decide, by decide, by decide⟩

/-- Counterexample for C1: the claimed corrected output `[54332.0, 61230.0,
54332.0]` differs from what the code computes — the third value stays
`543320000.0`. -/
theorem clean_demand_column_outlier_claim_false :
    App.clean_demand_column
        [.str "54332".toList, .str "61230".toList, .str "543320000".toList] ≠
      [some 54332, some 61230, some 54332] ∧
    (543320000 : ℚ) ≠ 54332 := by
  constructor <;> decide

/-- Claim C4 (corrected): in `src/app.py` numeric non-bool inputs pass
through as their exact float before any cleaning or ceiling check (so
`150000000000` and even the beyond-ceiling `10^15` are preserved); in
`src/OUT_estimation_app_v2.py` numeric inputs are stringified and every
period removed, which preserves integers (`150000000000` survives) but
corrupts non-integral floats (`2.5` becomes `25.0`). -/
theorem parse_demand_numeric_passthrough :
    (∀ n : ℤ, App.parse_demand (.int n) = some (n : ℚ)) ∧
    (∀ q : ℚ, App.parse_demand (.float q) = some q) ∧
    App.parse_demand (.float 150000000000) = some 150000000000 ∧
    App.parse_demand (.float ((10 : ℚ) ^ 15)) = some ((10 : ℚ) ^ 15) ∧
    V2.parse_demand (.int 150000000000) = some 150000000000 ∧
    V2.parse_demand (.float (mkRat 5 2)) = some 25 := by
  refine ⟨fun n => rfl, fun q => rfl, rfl, rfl, by decide, by decide⟩

/-- Counterexample for C4: the numeric float input `150000000000.0` is not
preserved by the `V2` normalizer — `str()` renders it as
`"150000000000.0"`, the period is stripped, and it reparses as
`1500000000000.0`, ten times the input. -/
theorem parse_demand_numeric_not_preserved_v2 :
    V2.parse_demand (.float 150000000000) = some 1500000000000 ∧
    (1500000000000 : ℚ) ≠ 150000000000 := by
  constructor <;> decide

/-- Claim C8 (corrected): `src/app.py`'s normalizer is idempotent on
columns of floats and nulls (numeric values pass through unchanged), but
`src/OUT_estimation_app_v2.py`'s is not: re-running it on its own output
re-stringifies each float and strips the decimal point, multiplying by ten
(`[2.0]` normalizes to `[20.0]`, and re-normalizing gives `[200.0]`). -/
theorem clean_demand_column_idempotency :
    (∀ col : List PyVal,
      (∀ v ∈ col, v = PyVal.none ∨ ∃ q, v = PyVal.float q) →
      App.clean_demand_column (toPyCol (App.clean_demand_column col)) =
        App.clean_demand_column col) ∧
    V2.clean_demand_column [PyVal.float 2] = [some 20] ∧
    V2.clean_demand_column (toPyCol (V2.clean_demand_column [PyVal.float 2])) =
      [some 200] := by
  refine ⟨fun col h => ?_, by decide, by decide⟩
  induction col with
  | nil => rfl
  | cons a t ih =>
    have ht := ih (fun v hv => h v (by simp [hv]))
    rcases h a (by simp) with ha | ⟨q, ha⟩ <;> subst ha <;>
      simpa [App.clean_demand_column, toPyCol, App.parse_demand] using ht

/-- Counterexample for C8: on the already-clean float column `[2.0]` the
`V2` normalizer is not idempotent. -/
theorem clean_demand_column_not_idempotent_v2 :
    V2.clean_demand_column (toPyCol (V2.clean_demand_column [PyVal.float 2])) ≠
      V2.clean_demand_column [PyVal.float 2] := by
  decide

/-- Witness for C8 on the concrete clean column `[None, 3.0]`. -/
theorem clean_demand_column_idempotency_witness :
    App.clean_demand_column
        (toPyCol (App.clean_demand_column [PyVal.none, PyVal.float 3])) =
      App.clean_demand_column [PyVal.none, PyVal.float 3] :=
  clean_demand_column_idempotency.1 [PyVal.none, PyVal.float 3]
    (by
      intro v hv
      simp only [List.mem_cons, List.not_mem_nil, or_false] at hv
      rcases hv with rfl | rfl
      · exact Or.inl rfl
      · exact Or.inr ⟨3, rfl⟩)

/-- Claim C9 (corrected): in `src/app.py` the search step is the identity
whenever the trimmed term is shorter than 3 characters; in
`src/OUT_estimation_app_v2.py` the length guard tests the raw term, so the
search step is the identity only when the untrimmed term is shorter than
3 characters (a term whose raw length is at least 3 still filters even if
its trimmed length is below 3). -/
theorem search_stage_short_term :
    (∀ (hn hd : Bool) (search : Chars) (rows : List Row),
      (pyStrip search).length < 3 → App.searchStage hn hd search rows = rows) ∧
    (∀ (search : Chars) (rows : List Row),
      search.length < 3 → V2.searchStage search rows = rows) := by
  constructor
  · intro hn hd search rows h
    rw [App.searchStage, if_neg]
    rintro ⟨-, h3⟩
    omega
  · intro search rows h
    rw [V2.searchStage, if_neg]
    rintro ⟨-, h3⟩
    omega

/-- Counterexample for C9: the term `"ab "` has trimmed length 2 (< 3), yet
the `V2` search step filters with it and drops every row. -/
theorem search_stage_trimmed_short_filters_v2 :
    (pyStrip "ab ".toList).length < 3 ∧
    V2.searchStage "ab ".toList [rowA] = [] ∧
    ([rowA] : List Row) ≠ [] := by
  refine ⟨by decide, by decide, by decide⟩

/-- Witness for C9 on concrete short search terms. -/
theorem search_stage_short_term_witness :
    App.searchStage true true " a ".toList [rowA] = [rowA] ∧
    V2.searchStage "a".toList [rowA] = [rowA] :=
  ⟨search_stage_short_term.1 true true " a ".toList [rowA] (by decide),
   search_stage_short_term.2 "a".toList [rowA] (by decide)⟩

/-- Claim C3 (corrected): the date filter of `src/app.py` keeps a row with
parseable dates exactly when the row's interval overlaps the criteria
window (`End ≥ criteriaStart` and `Start ≤ criteriaEnd`) and silently
excludes rows with an unparseable date; the date filter of
`src/OUT_estimation_app_v2.py` instead requires containment
(`Start ≥ criteriaStart` and `End ≤ criteriaEnd`), also excluding
unparseable rows. -/
theorem date_filter_semantics (sd ed : ℤ) (rows : List Row) (r : Row) :
    (∀ e' s' : ℤ, toDT r.dend = some e' → toDT r.dstart = some s' →
      ((r ∈ App.dateStage true true sd ed rows ↔
          r ∈ rows ∧ sd ≤ e' ∧ s' ≤ ed) ∧
       (r ∈ V2.dateStage sd ed rows ↔
          r ∈ rows ∧ sd ≤ s' ∧ e' ≤ ed))) ∧
    ((toDT r.dend = Option.none ∨ toDT r.dstart = Option.none) →
      r ∉ App.dateStage true true sd ed rows ∧
      r ∉ V2.dateStage sd ed rows) := by
  constructor
  · intro e' s' he hs
    constructor
    · rw [App.dateStage]
      simp [List.mem_filter, App.dateKeep, he, hs, and_assoc]
    · rw [V2.dateStage]
      simp [List.mem_filter, V2.dateKeep, he, hs, and_assoc]
  · intro h
    have hkeep : App.dateKeep sd ed r = false ∧ V2.dateKeep sd ed r = false := by
      rcases h with h | h
      · cases hs : toDT r.dstart <;>
          simp [App.dateKeep, V2.dateKeep, h, hs]
      · cases he : toDT r.dend <;>
          simp [App.dateKeep, V2.dateKeep, h, he]
    constructor
    · rw [App.dateStage]
      simp [List.mem_filter, hkeep.1]
    · rw [V2.dateStage]
      simp [List.mem_filter, hkeep.2]

/-- Counterexample for C3: `rowA` runs from day 1 to day 10 and overlaps
the window `[5, 20]` (`10 ≥ 5` and `1 ≤ 20`), so by the claim the period
filter keeps it; the `V2` period filter drops it (containment fails). -/
theorem date_filter_overlap_claim_false_v2 :
    toDT rowA.dend = some 10 ∧ (5 : ℤ) ≤ 10 ∧
    toDT rowA.dstart = some 1 ∧ (1 : ℤ) ≤ 20 ∧
    (V2.filter_data tableA "PL".toList [] 5 20 Option.none).rows = [] := by
  refine ⟨rfl, by decide, rfl, by decide, by decide⟩

/-- Witness for C3: with the same row and window, the `App` stage keeps the
row and the `V2` stage drops it. -/
theorem date_filter_semantics_witness :
    rowA ∈ App.dateStage true true 5 20 [rowA] ∧
    rowA ∉ V2.dateStage 5 20 [rowA] := by
  have h := (date_filter_semantics 5 20 [rowA] rowA).1 10 1 rfl rfl
  constructor
  · exact h.1.mpr ⟨by decide, by decide, by decide⟩
  · intro hmem
    exact absurd (h.2.mp hmem).2.1 (by decide)

/-! Supporting lemmas for the decimal-comma claim. -/

theorem mem_comma_string {a b : Chars} (hda : ∀ c ∈ a, isDig c = true)
    (hdb : ∀ c ∈ b, isDig c = true) :
    ∀ c ∈ a ++ ',' :: b, isDig c = true ∨ c = ',' := by
  intro c hc
  rcases List.mem_append.mp hc with h | h
  · exact Or.inl (hda c h)
  · rcases List.mem_cons.mp h with rfl | h
    · exact Or.inr rfl
    · exact Or.inl (hdb c h)

theorem removeChar_comma_string (x : Char) {a b : Chars}
    (hda : ∀ c ∈ a, isDig c = true) (hdb : ∀ c ∈ b, isDig c = true)
    (hx : isDig x = false) (hcx : (',' : Char) ≠ x) :
    removeChar x (a ++ ',' :: b) = a ++ ',' :: b := by
  apply removeChar_id
  intro c hc
  rcases mem_comma_string hda hdb c hc with h | rfl
  · exact ne_of_isDig h hx
  · exact hcx

theorem replaceChar_comma_string {a b : Chars}
    (hda : ∀ c ∈ a, isDig c = true) (hdb : ∀ c ∈ b, isDig c = true) :
    replaceChar ',' '.' (a ++ ',' :: b) = a ++ '.' :: b := by
  have ia : replaceChar ',' '.' a = a :=
    replaceChar_id (fun c hc => ne_of_isDig (hda c hc) (by decide))
  have ib : replaceChar ',' '.' b = b :=
    replaceChar_id (fun c hc => ne_of_isDig (hdb c hc) (by decide))
  unfold replaceChar at ia ib ⊢
  rw [List.map_append, List.map_cons, ia, ib]
  simp

theorem pyFloat_digits_dot {a b : Chars} (ha : a ≠ [])
    (hda : ∀ c ∈ a, isDig c = true) (hdb : ∀ c ∈ b, isDig c = true) :
    pyFloat (a ++ '.' :: b) = some (decimalVal a b) := by
  obtain ⟨d, a', rfl⟩ : ∃ d a', a = d :: a' := by
    cases a with
    | nil => exact absurd rfl ha
    | cons d a' => exact ⟨d, a', rfl⟩
  have hd : isDig d = true := hda d (by simp)
  have h1 : d ≠ '-' := ne_of_isDig hd (by decide)
  have h2 : d ≠ '+' := ne_of_isDig hd (by decide)
  have hstrip : stripSign ((d :: a') ++ '.' :: b) = (false, (d :: a') ++ '.' :: b) := by
    simp [stripSign, h1, h2]
  have hspan1 : spanDig ((d :: a') ++ '.' :: b) = (d :: a', '.' :: b) :=
    spanDig_all hda (Or.inr ⟨'.', b, rfl, by decide⟩)
  have hspan2 : spanDig b = (b, []) := by
    have h : spanDig (b ++ []) = (b, []) := spanDig_all hdb (Or.inl rfl)
    simpa using h
  simp only [pyFloat, pyFloatParts, hstrip, hspan1, hspan2, List.isEmpty_cons,
    Bool.false_and, Bool.false_eq_true, if_false, Option.map_some']
  simp [partsVal, decimalVal, digsVal]

theorem cleaned_comma_string {a b : Chars}
    (hda : ∀ c ∈ a, isDig c = true) (hdb : ∀ c ∈ b, isDig c = true) :
    App.cleaned (a ++ ',' :: b) = a ++ '.' :: b := by
  have h160 := removeChar_comma_string (Char.ofNat 160) hda hdb
    (by decide) (by decide)
  have h8239 := removeChar_comma_string (Char.ofNat 8239) hda hdb
    (by decide) (by decide)
  have hsp := removeChar_comma_string ' ' hda hdb (by decide) (by decide)
  have hfil : (a ++ ',' :: b).filter App.keep = a ++ ',' :: b := by
    apply filter_all
    intro c hc
    rcases mem_comma_string hda hdb c hc with h | rfl
    · simp [App.keep, h]
    · simp [App.keep]
  have ha0 : countC ',' a = 0 :=
    countC_zero (fun c hc => ne_of_isDig (hda c hc) (by decide))
  have hb0 : countC ',' b = 0 :=
    countC_zero (fun c hc => ne_of_isDig (hdb c hc) (by decide))
  have hc1 : countC ',' (a ++ ',' :: b) = 1 := by
    rw [countC_append, ha0]
    simp [countC, hb0]
  have hc2 : countC '.' (a ++ ',' :: b) = 0 := by
    apply countC_zero
    intro c hc
    rcases mem_comma_string hda hdb c hc with h | rfl
    · exact ne_of_isDig h (by decide)
    · decide
  simp only [App.cleaned]
  rw [h160, h8239, hsp, hfil, if_pos ⟨hc1, hc2⟩, replaceChar_comma_string hda hdb]

/-- Claim C7 (corrected): a digit string with a single decimal comma and no
period parses as `float(intpart + "." + fracpart)` — unconditionally in
`src/OUT_estimation_app_v2.py`, but in `src/app.py` only while that value
stays within the `1e12` ceiling; beyond the ceiling `src/app.py` yields
`None` instead of the claimed float. -/
theorem parse_demand_decimal_comma (a b : Chars) (ha : a ≠ []) (hb : b ≠ [])
    (hda : ∀ c ∈ a, isDig c = true) (hdb : ∀ c ∈ b, isDig c = true) :
    pyFloat (a ++ '.' :: b) = some (decimalVal a b) ∧
    V2.parse_demand (.str (a ++ ',' :: b)) = some (decimalVal a b) ∧
    App.parse_demand (.str (a ++ ',' :: b)) =
      (if (10 ^ 12 : ℚ) < |decimalVal a b| then Option.none
       else some (decimalVal a b)) := by
  refine ⟨pyFloat_digits_dot ha hda hdb, ?_, ?_⟩
  · have heuro := removeChar_comma_string '€' hda hdb (by decide) (by decide)
    have hsp := removeChar_comma_string ' ' hda hdb (by decide) (by decide)
    have hdot := removeChar_comma_string '.' hda hdb (by decide) (by decide)
    simp only [V2.parse_demand, pyStr]
    rw [heuro, hsp, hdot, replaceChar_comma_string hda hdb]
    exact pyFloat_digits_dot ha hda hdb
  · have hbad : ¬(a ++ '.' :: b = [] ∨ a ++ '.' :: b = ['-'] ∨
        a ++ '.' :: b = ['.'] ∨ a ++ '.' :: b = [',']) := by
      intro h
      have hlen : (a ++ '.' :: b).length = a.length + (b.length + 1) := by simp
      have hla : 1 ≤ a.length := List.length_pos.mpr ha
      have hlb : 1 ≤ b.length := List.length_pos.mpr hb
      rcases h with h | h | h | h <;> rw [h] at hlen <;> simp at hlen <;> omega
    show App.strPath (a ++ ',' :: b) = _
    simp only [App.strPath, cleaned_comma_string hda hdb]
    rw [if_neg hbad, pyFloat_digits_dot ha hda hdb]

/-- Counterexample for C7: `"9999999999999,9"` is a numeric string with a
single comma, but `src/app.py` normalizes it to `None` (the reparsed value
`9999999999999.9` exceeds the `1e12` ceiling), not to the claimed float. -/
theorem parse_demand_decimal_comma_ceiling :
    App.parse_demand (.str "9999999999999,9".toList) = Option.none ∧
    (Option.none : Option ℚ) ≠ some (mkRat 99999999999999 10) := by
  constructor <;> decide

/-- Witness for C7 on the concrete string `"54,3"`. -/
theorem parse_demand_decimal_comma_witness :
    V2.parse_demand (.str "54,3".toList) = some (mkRat 543 10) ∧
    App.parse_demand (.str "54,3".toList) = some (mkRat 543 10) := by
  have hv : decimalVal "54".toList "3".toList = mkRat 543 10 := by decide
  have h := parse_demand_decimal_comma "54".toList "3".toList (by decide)
    (by decide) (by decide) (by decide)
  refine ⟨?_, ?_⟩
  · have h1 := h.2.1
    rw [hv] at h1
    exact h1
  · have h2 := h.2.2
    rw [hv, if_neg (by decide)] at h2
    exact h2
